import Mathlib

/-!
Verification of the per-resource power-action controller of the Wings daemon.

The development shallowly embeds three source units:
* `server/power.go` (src/unnamed/part_000): `ExecutingPowerAction`,
  `HandlePowerAction` and the pre-boot pipeline `onBeforeStart`;
* `router/router_server.go` (src/unnamed/part_001): the HTTP handlers
  `deleteServer` and `postServerReinstall`;
* `sftp/utils.go`: `ListerAt.ListAt`.

Effectful collaborator calls (backend environment, panel sync, filesystem)
are modelled by recording their prearranged results as fields of the
`Server` state and by emitting an explicit event trace, so ordering and
"never invoked" properties become statements about the trace.  Logging and
console output are not modelled.  The per-server weighted semaphore of
capacity 1 is modelled as `Option Bool`: `none` is the nil (never created)
lock, `some h` an existing lock with `h` = held by another task.
-/

namespace Wings

/-- Go error values as they appear in the embedded code: sentinel errors of
the server package, `context.DeadlineExceeded`, `errors.WithMessage`
wrappers, and opaque errors originating from collaborators (`external`). -/
inductive GoErr where
  | deadlineExceeded
  | withMessage (msg : String) (wrapped : GoErr)
  | isInstalling
  | isTransferring
  | isRestoring
  | isRunning
  | suspended
  | external (code : Nat)
  | unknownAction
  deriving DecidableEq, Repr

/-- Signals passed to `Environment.Terminate`; the code only uses `os.Kill`. -/
inductive Signal where
  | kill
  deriving DecidableEq, Repr

/-- `environment.ProcessState`; the dispatch code only compares against
`ProcessOfflineState`. -/
inductive ProcessState where
  | offline
  | starting
  | running
  | stopping
  deriving DecidableEq, Repr

/-- Observable collaborator calls made by the power controller and the
pre-boot pipeline, recorded in order of occurrence. -/
inductive Event where
  | sync
  | checkSuspended
  | syncWithEnvironment
  | hasSpaceAvailableAsync
  | hasSpaceErrSync
  | updateConfigurationFiles
  | chown
  | envStart
  | envWaitForStop (timeoutSeconds : Int) (forceIfTimeout : Bool)
  | envTerminate (signal : Signal)
  deriving DecidableEq, Repr

/-- The backend environment collaborator: its current state plus the
prearranged results of its fallible calls (`none` = success). -/
structure Environment where
  state : ProcessState
  startErr : Option Nat
  waitForStopErr : Option Nat
  terminateErr : Option Nat
  destroyErr : Option Nat
  deriving DecidableEq, Repr

/-- The per-resource state the embedded code reads and writes: the advisory
flags, the lazily created power lock, the backend environment, prearranged
collaborator results, and the bookkeeping mutated by the deletion cascade. -/
structure Server where
  installing : Bool
  transferring : Bool
  restoring : Bool
  suspended : Bool
  powerLock : Option Bool
  environment : Environment
  syncErr : Option Nat
  diskSpace : Int
  hasSpaceErr : Option Nat
  chownErr : Option Nat
  ctxCancelled : Bool
  eventsDestroyed : Bool
  websocketsCancelled : Bool
  downloadsCancelled : Bool
  registered : Bool
  fileRemovalScheduled : Bool
  deriving DecidableEq, Repr

/-- The slice of `config.Get().System` the pre-boot pipeline reads. -/
structure Config where
  checkPermissionsOnBoot : Bool
  deriving DecidableEq, Repr

/-- `PowerAction` is a string type in the source. -/
abbrev PowerAction := String

def PowerActionStart : PowerAction := "start"

def PowerActionStop : PowerAction := "stop"

def PowerActionRestart : PowerAction := "restart"

def PowerActionTerminate : PowerAction := "kill"

/-- `PowerAction.IsValid` from the source. -/
def PowerAction.IsValid (pa : PowerAction) : Bool :=
  pa == PowerActionStart ||
    pa == PowerActionStop ||
    pa == PowerActionTerminate ||
    pa == PowerActionRestart

/-- `PowerAction.IsStart` from the source. -/
def PowerAction.IsStart (pa : PowerAction) : Bool :=
  pa == PowerActionStart || pa == PowerActionRestart

/-- `Server.ExecutingPowerAction`: a nil lock means nothing is running;
otherwise `TryAcquire(1)` followed, on success, by `Release(1)`, returning
`!ok`.  The result pairs the probe answer with the lock state after the
probe (acquire-then-release restores it). -/
def ExecutingPowerAction (s : Server) : Bool × Option Bool :=
  match s.powerLock with
  | none => (false, none)
  | some held =>
    if held then (true, some true) else (false, some false)

/-- The error `errors.WithMessage(context.DeadlineExceeded, "could not
acquire lock on power state")` produced on both failed-acquisition paths. -/
def lockTimeoutErr : GoErr :=
  GoErr.withMessage "could not acquire lock on power state" GoErr.deadlineExceeded

/-- Whether the (lazily initialised) power lock is currently held by
another task; a nil lock is created free. -/
def lockHeld (s : Server) : Bool :=
  match s.powerLock with
  | none => false
  | some h => h

/-- The condition `len(waitSeconds) > 0 && waitSeconds[0] != 0` choosing the
blocking acquisition path. -/
def waitBoundGiven (waitSeconds : List Int) : Bool :=
  match waitSeconds with
  | [] => false
  | w :: _ => decide (w ≠ 0)

/-- `s.onBeforeStart()`: sync with the panel (failure wrapped and returned),
re-check suspension after the sync, propagate attributes into the
environment, the disk-space step (asynchronous recalculation when the limit
is ≤ 0, synchronous check otherwise), configuration-file regeneration
(errors logged only), and ownership normalisation when configured. -/
def onBeforeStart (cfg : Config) (s : Server) : Option GoErr × List Event :=
  match s.syncErr with
  | some e =>
    (some (GoErr.withMessage "unable to sync server data from Panel instance"
      (GoErr.external e)), [Event.sync])
  | none =>
    if s.suspended then
      (some GoErr.suspended, [Event.sync, Event.checkSuspended])
    else
      let diskStep : Option GoErr × List Event :=
        if s.diskSpace ≤ 0 then
          (none, [Event.hasSpaceAvailableAsync])
        else
          match s.hasSpaceErr with
          | some e => (some (GoErr.external e), [Event.hasSpaceErrSync])
          | none => (none, [Event.hasSpaceErrSync])
      let pre := [Event.sync, Event.checkSuspended, Event.syncWithEnvironment] ++ diskStep.2
      match diskStep.1 with
      | some e => (some e, pre)
      | none =>
        let tr := pre ++ [Event.updateConfigurationFiles]
        if cfg.checkPermissionsOnBoot then
          match s.chownErr with
          | some e =>
            (some (GoErr.withMessage
              "failed to chown root server directory during pre-boot process"
              (GoErr.external e)), tr ++ [Event.chown])
          | none => (none, tr ++ [Event.chown])
        else
          (none, tr)

/-- The action switch at the end of `HandlePowerAction`: Start checks the
backend is offline, runs the pipeline, then `Environment.Start()`; Stop is
`WaitForStop(10*60, true)`; Restart is the same stop-wait, then the Start
body; Terminate is `Environment.Terminate(os.Kill)`; anything else is the
unknown-action error. -/
def runAction (cfg : Config) (s : Server) (action : PowerAction) :
    Option GoErr × List Event :=
  if action = PowerActionStart then
    if s.environment.state ≠ ProcessState.offline then
      (some GoErr.isRunning, [])
    else
      match onBeforeStart cfg s with
      | (some e, tr) => (some e, tr)
      | (none, tr) =>
        (s.environment.startErr.map GoErr.external, tr ++ [Event.envStart])
  else if action = PowerActionStop then
    (s.environment.waitForStopErr.map GoErr.external, [Event.envWaitForStop 600 true])
  else if action = PowerActionRestart then
    match s.environment.waitForStopErr with
    | some e => (some (GoErr.external e), [Event.envWaitForStop 600 true])
    | none =>
      match onBeforeStart cfg s with
      | (some e, tr) => (some e, Event.envWaitForStop 600 true :: tr)
      | (none, tr) =>
        (s.environment.startErr.map GoErr.external,
          Event.envWaitForStop 600 true :: (tr ++ [Event.envStart]))
  else if action = PowerActionTerminate then
    (s.environment.terminateErr.map GoErr.external, [Event.envTerminate Signal.kill])
  else
    (some GoErr.unknownAction, [])

/-- Outcome of one dispatch: the returned error, the collaborator calls in
order, and the power-lock state once every deferred release has run. -/
structure DispatchResult where
  err : Option GoErr
  events : List Event
  lockAfter : Option Bool
  deriving DecidableEq, Repr

/-- `s.HandlePowerAction(action, waitSeconds...)`.  The advisory gates run
first; then, for non-Terminate actions, the lock is acquired (blocking up to
the wait bound when one is given, a single `TryAcquire` otherwise) and
released by `defer` on every exit path; Terminate only try-acquires and
proceeds either way.  `acquireWithinDeadline` resolves the one
nondeterministic outcome: whether a blocking acquisition on a lock held by
another task succeeds before the deadline. -/
def HandlePowerAction (cfg : Config) (s : Server) (action : PowerAction)
    (waitSeconds : List Int) (acquireWithinDeadline : Bool) : DispatchResult :=
  if s.installing then
    { err := some GoErr.isInstalling, events := [], lockAfter := s.powerLock }
  else if s.transferring then
    { err := some GoErr.isTransferring, events := [], lockAfter := s.powerLock }
  else if s.restoring then
    { err := some GoErr.isRestoring, events := [], lockAfter := s.powerLock }
  else if action ≠ PowerActionTerminate then
    let acquired :=
      if waitBoundGiven waitSeconds then !(lockHeld s) || acquireWithinDeadline
      else !(lockHeld s)
    if acquired then
      let (e, tr) := runAction cfg s action
      { err := e, events := tr, lockAfter := some false }
    else
      { err := some lockTimeoutErr, events := [], lockAfter := some true }
  else
    let (e, tr) := runAction cfg s action
    { err := e, events := tr,
      lockAfter := if lockHeld s then some true else some false }

/-- Steps of the deletion cascade in `deleteServer`, in order of issue;
`scheduleFileRemoval` records the spawn of the detached `os.RemoveAll`
goroutine (its completion is never awaited by the handler). -/
inductive TEvent where
  | setSuspended
  | ctxCancel
  | eventsDestroy
  | websocketsCancelAll
  | downloadsCancel
  | envDestroy
  | scheduleFileRemoval
  | registryRemove
  deriving DecidableEq, Repr

/-- `deleteServer`: suspend, cancel the context, destroy the event bus,
cancel websockets and pending downloads, then `Environment.Destroy()`.  A
destroy error is surfaced via `WithError` and stops the cascade; on success
the file removal is spawned in a goroutine and the server is removed from
the manager synchronously.  Returns the surfaced error, the final server
state, and the trace of issued steps. -/
def deleteServer (s : Server) : Option GoErr × Server × List TEvent :=
  let s1 := { s with
    suspended := true
    ctxCancelled := true
    eventsDestroyed := true
    websocketsCancelled := true
    downloadsCancelled := true }
  let pre := [TEvent.setSuspended, TEvent.ctxCancel, TEvent.eventsDestroy,
    TEvent.websocketsCancelAll, TEvent.downloadsCancel]
  match s.environment.destroyErr with
  | some e => (some (GoErr.external e), s1, pre ++ [TEvent.envDestroy])
  | none =>
    (none,
      { s1 with fileRemovalScheduled := true, registered := false },
      pre ++ [TEvent.envDestroy, TEvent.scheduleFileRemoval, TEvent.registryRemove])

/-- HTTP outcomes of `postServerReinstall`: 409 Conflict with an error
message, or 202 Accepted with the reinstall spawned in the background. -/
inductive ReinstallOutcome where
  | conflict (msg : String)
  | acceptedReinstallSpawned
  deriving DecidableEq, Repr

/-- `postServerReinstall`: refuse with 409 when the non-blocking probe
reports a power action in progress, otherwise spawn the reinstall and
return 202. -/
def postServerReinstall (s : Server) : ReinstallOutcome :=
  if (ExecutingPowerAction s).1 then
    ReinstallOutcome.conflict
      "Cannot execute server reinstall event while another power action is running."
  else
    ReinstallOutcome.acceptedReinstallSpawned

/-- The error values an SFTP handler can return; the embedded `ListAt` only
ever produces `eof` (`io.EOF`) or no error, but `fxerr` values exist in the
same file. -/
inductive IOError where
  | eof
  | quotaExceeded
  | failure
  deriving DecidableEq, Repr

/-- Go built-in `copy(dst, src)`: copies `min (len dst) (len src)` elements
into the front of `dst`, leaving the rest of `dst` unchanged; returns the
count and the resulting destination contents. -/
def goCopy {α : Type} (dst src : List α) : Nat × List α :=
  (min dst.length src.length,
    src.take dst.length ++ dst.drop (min dst.length src.length))

/-- `ListerAt.ListAt(f, offset)`: `(0, io.EOF)` past the end of the list;
otherwise `copy(f, l[offset:])`, returning the count with `io.EOF` when the
destination was not filled.  A negative `offset` reaches the slice
expression `l[offset:]`, which panics in Go; the panic is modelled as
`none`.  The `some` result carries the count, the destination buffer after
the copy, and the returned error. -/
def ListAt {α : Type} (l : List α) (f : List α) (offset : Int) :
    Option (Nat × List α × Option IOError) :=
  if offset ≥ (l.length : Int) then
    some (0, f, some IOError.eof)
  else if offset < 0 then
    none
  else
    let rest := l.drop offset.toNat
    let n := (goCopy f rest).1
    let fNew := (goCopy f rest).2
    if n < f.length then
      some (n, fNew, some IOError.eof)
    else
      some (n, fNew, none)

/-- The behaviour C10 ascribes to `ListAt`, written from the claim text:
`(0, io.EOF)` when `o ≥ length l`, otherwise a copy of
`n = min (length f) (length l − o)` entries starting at index `o`, with
`io.EOF` iff `n < length f`.  Used only to compare with the embedded
`ListAt`. -/
def listAtClaimed {α : Type} (l f : List α) (o : Int) :
    Nat × List α × Option IOError :=
  if o ≥ (l.length : Int) then
    (0, f, some IOError.eof)
  else
    let n := min f.length (((l.length : Int) - o).toNat)
    let fNew := (l.drop o.toNat).take n ++ f.drop n
    if n < f.length then (n, fNew, some IOError.eof) else (n, fNew, none)

/-- A fresh, registered, offline resource with no prearranged collaborator
failures and an unlimited (0) disk limit; base point for the witnesses. -/
def env0 : Environment :=
  { state := ProcessState.offline, startErr := none, waitForStopErr := none,
    terminateErr := none, destroyErr := none }

/-- See `env0`. -/
def s0 : Server :=
  { installing := false, transferring := false, restoring := false,
    suspended := false, powerLock := none, environment := env0,
    syncErr := none, diskSpace := 0, hasSpaceErr := none, chownErr := none,
    ctxCancelled := false, eventsDestroyed := false, websocketsCancelled := false,
    downloadsCancelled := false, registered := true, fileRemovalScheduled := false }

/-- A configuration with the boot-time permission check enabled. -/
def cfg0 : Config := { checkPermissionsOnBoot := true }

/-- `s0` with its power lock held by another task. -/
def sLocked : Server := { s0 with powerLock := some true }

/-- `s0` marked suspended by the panel. -/
def sSuspended : Server := { s0 with suspended := true }

/-- `s0` whose backend `WaitForStop` call will fail with error code 7. -/
def sStopFail : Server :=
  { s0 with environment := { env0 with waitForStopErr := some 7 } }

/-- `s0` whose backend `Destroy` call will fail with error code 3. -/
def sDestroyFail : Server :=
  { s0 with environment := { env0 with destroyErr := some 3 } }

/-- `s0` whose backend process is currently running. -/
def sRunning : Server :=
  { s0 with environment := { env0 with state := ProcessState.running } }

/-- `s0` with a positive disk limit and a failing synchronous space check
(error code 9). -/
def sDiskFail : Server := { s0 with diskSpace := 100, hasSpaceErr := some 9 }

/-- A nil or free power lock means `lockHeld` is false. -/
theorem lockHeld_eq_false (s : Server) (h : s.powerLock ≠ some true) :
    lockHeld s = false := by
  unfold lockHeld
  rcases hp : s.powerLock with _ | b
  · rfl
  · cases b
    · rfl
    · exact absurd hp h

/-- Taking `min k (length r)` elements is the same as taking `k`. -/
theorem take_min_length {α : Type} (r : List α) (k : Nat) :
    r.take (min k r.length) = r.take k := by
  induction r generalizing k with
  | nil => simp
  | cons a t ih =>
    cases k with
    | zero => simp
    | succ k =>
      simp only [List.length_cons, Nat.succ_min_succ, List.take_succ_cons]
      rw [ih]

/-- For non-negative offsets the embedded `ListAt` agrees with the
behaviour the claim describes. -/
theorem listAt_eq_claimed {α : Type} (l f : List α) (o : Int) (h : 0 ≤ o) :
    ListAt l f o = some (listAtClaimed l f o) := by
  unfold ListAt listAtClaimed goCopy
  by_cases hge : o ≥ (l.length : Int)
  · simp [hge]
  · have hlt : ¬ o < 0 := by omega
    have hn : ((l.length : Int) - o).toNat = l.length - o.toNat := by omega
    have hrest : (l.drop o.toNat).length = l.length - o.toNat := by
      simp [List.length_drop]
    have htake : (l.drop o.toNat).take f.length
        = (l.drop o.toNat).take (min f.length (l.length - o.toNat)) := by
      rw [← hrest]
      rw [take_min_length]
    simp only [hge, if_false, hlt, if_neg, hn, hrest, htake]
    split <;> rfl

/-- For non-negative offsets the result of `ListAt` stays within both
buffers and its error is at most `io.EOF`. -/
theorem listAt_safety {α : Type} (l f : List α) (o : Int) (h : 0 ≤ o) :
    ∀ n fNew e, ListAt l f o = some (n, fNew, e) →
      n ≤ f.length ∧ (o < (l.length : Int) → o.toNat + n ≤ l.length) ∧
      fNew.length = f.length ∧
      e ≠ some IOError.quotaExceeded ∧ e ≠ some IOError.failure := by
  intro n fNew e hEq
  rw [listAt_eq_claimed l f o h] at hEq
  unfold listAtClaimed at hEq
  by_cases hge : o ≥ (l.length : Int)
  · simp only [hge, if_pos, Option.some.injEq, Prod.mk.injEq] at hEq
    obtain ⟨hn, hf, he⟩ := hEq
    subst hn
    subst hf
    subst he
    refine ⟨by omega, fun hlt => by omega, rfl, by simp, by simp⟩
  · have htn : ((l.length : Int) - o).toNat = l.length - o.toNat := by omega
    have hol : o.toNat ≤ l.length := by omega
    rw [if_neg hge, htn] at hEq
    have h2 : min f.length (l.length - o.toNat) ≤ f.length := Nat.min_le_left _ _
    have h3 : min f.length (l.length - o.toNat) ≤ l.length - o.toNat :=
      Nat.min_le_right _ _
    by_cases hc : min f.length (l.length - o.toNat) < f.length
    · rw [if_pos hc] at hEq
      simp only [Option.some.injEq, Prod.mk.injEq] at hEq
      obtain ⟨hn, hf, he⟩ := hEq
      subst hn
      subst hf
      subst he
      refine ⟨h2, fun hlt => by omega, ?_, by simp, by simp⟩
      simp only [List.length_append, List.length_take, List.length_drop]
      omega
    · rw [if_neg hc] at hEq
      simp only [Option.some.injEq, Prod.mk.injEq] at hEq
      obtain ⟨hn, hf, he⟩ := hEq
      subst hn
      subst hf
      subst he
      refine ⟨h2, fun hlt => by omega, ?_, by simp, by simp⟩
      simp only [List.length_append, List.length_take, List.length_drop]
      omega

/-- C1: for a resource past the Installing/Transferring/Restoring gates,
dispatching Terminate never produces the LockTimeout error: it performs a
single non-blocking acquisition attempt (the outcome is independent of the
wait bound and of the blocking-acquisition oracle), invokes the backend
`Terminate(os.Kill)` whether or not that attempt succeeded, returns that
call's result as-is, and releases the lock by return whenever the attempt
succeeded (a lock held by another task stays held). -/
theorem terminate_bypasses_lock (cfg : Config) (s : Server)
    (ws ws' : List Int) (b b' : Bool)
    (hi : s.installing = false) (ht : s.transferring = false)
    (hr : s.restoring = false) :
    (HandlePowerAction cfg s PowerActionTerminate ws b).err
        = s.environment.terminateErr.map GoErr.external ∧
    (HandlePowerAction cfg s PowerActionTerminate ws b).err ≠ some lockTimeoutErr ∧
    (HandlePowerAction cfg s PowerActionTerminate ws b).events
        = [Event.envTerminate Signal.kill] ∧
    (s.powerLock ≠ some true →
      (HandlePowerAction cfg s PowerActionTerminate ws b).lockAfter = some false) ∧
    (s.powerLock = some true →
      (HandlePowerAction cfg s PowerActionTerminate ws b).lockAfter = some true) ∧
    HandlePowerAction cfg s PowerActionTerminate ws b
      = HandlePowerAction cfg s PowerActionTerminate ws' b' := by
  refine ⟨?_, ?_, ?_, ?_, ?_, ?_⟩
  · simp [HandlePowerAction, hi, ht, hr, runAction, PowerActionTerminate,
      PowerActionStart, PowerActionStop, PowerActionRestart]
  · rcases hte : s.environment.terminateErr with _ | e <;>
      simp [HandlePowerAction, hi, ht, hr, runAction, hte, lockTimeoutErr,
        PowerActionTerminate, PowerActionStart, PowerActionStop, PowerActionRestart]
  · simp [HandlePowerAction, hi, ht, hr, runAction, PowerActionTerminate,
      PowerActionStart, PowerActionStop, PowerActionRestart]
  · intro h
    have hlh := lockHeld_eq_false s h
    simp [HandlePowerAction, hi, ht, hr, runAction, hlh, PowerActionTerminate]
  · intro h
    have hlh : lockHeld s = true := by unfold lockHeld; rw [h]
    simp [HandlePowerAction, hi, ht, hr, runAction, hlh, PowerActionTerminate]
  · simp [HandlePowerAction, hi, ht, hr, runAction, PowerActionTerminate]

/-- C1 witness: the gates of `s0` are open and Terminate on it returns the
backend result with the terminate call in the trace. -/
theorem terminate_bypasses_lock_witness :
    s0.installing = false ∧ s0.transferring = false ∧ s0.restoring = false ∧
    (HandlePowerAction cfg0 s0 PowerActionTerminate [] true).err
        = s0.environment.terminateErr.map GoErr.external ∧
    (HandlePowerAction cfg0 s0 PowerActionTerminate [] true).events
        = [Event.envTerminate Signal.kill] :=
  ⟨rfl, rfl, rfl,
    (terminate_bypasses_lock cfg0 s0 [] [] true true rfl rfl rfl).1,
    (terminate_bypasses_lock cfg0 s0 [] [] true true rfl rfl rfl).2.2.1⟩

/-- C2: in `deleteServer`, Suspended is set first (the trace starts with
it); when `Destroy()` fails the error is surfaced as-is, the resource stays
registered, and the asynchronous file removal is never scheduled; when
`Destroy()` succeeds the removal goroutine is spawned and the resource is
deregistered synchronously in the same call (no completion of the removal
is ever awaited — completion is not even an event of the model). -/
theorem deleteServer_destroy_gate (s : Server) :
    ((deleteServer s).2.1.suspended = true ∧
      (deleteServer s).2.2.head? = some TEvent.setSuspended) ∧
    (∀ e, s.environment.destroyErr = some e →
      (deleteServer s).1 = some (GoErr.external e) ∧
      (deleteServer s).2.1.registered = s.registered ∧
      (deleteServer s).2.1.fileRemovalScheduled = s.fileRemovalScheduled ∧
      TEvent.scheduleFileRemoval ∉ (deleteServer s).2.2 ∧
      TEvent.registryRemove ∉ (deleteServer s).2.2) ∧
    (s.environment.destroyErr = none →
      (deleteServer s).1 = none ∧
      (deleteServer s).2.1.registered = false ∧
      (deleteServer s).2.1.fileRemovalScheduled = true ∧
      (deleteServer s).2.2 = [TEvent.setSuspended, TEvent.ctxCancel,
        TEvent.eventsDestroy, TEvent.websocketsCancelAll, TEvent.downloadsCancel,
        TEvent.envDestroy, TEvent.scheduleFileRemoval, TEvent.registryRemove]) := by
  refine ⟨?_, ?_, ?_⟩
  · rcases hd : s.environment.destroyErr with _ | e <;> simp [deleteServer, hd]
  · intro e he
    simp [deleteServer, he]
  · intro hd
    simp [deleteServer, hd]

/-- C2 witness: a failing `Destroy` aborts the cascade of `sDestroyFail`,
which stays registered with no removal scheduled. -/
theorem deleteServer_destroy_gate_witness :
    sDestroyFail.environment.destroyErr = some 3 ∧
    (deleteServer sDestroyFail).1 = some (GoErr.external 3) ∧
    (deleteServer sDestroyFail).2.1.registered = sDestroyFail.registered ∧
    (deleteServer sDestroyFail).2.1.fileRemovalScheduled
        = sDestroyFail.fileRemovalScheduled :=
  ⟨rfl, ((deleteServer_destroy_gate sDestroyFail).2.1 3 rfl).1,
    ((deleteServer_destroy_gate sDestroyFail).2.1 3 rfl).2.1,
    ((deleteServer_destroy_gate sDestroyFail).2.1 3 rfl).2.2.1⟩

/-- C3 counterexample: on a resource whose probe reports an in-progress
power action, `deleteServer` is not rejected — it proceeds through the
teardown cascade (suspension set, backend destroy issued) and succeeds, so
the claim that such a deletion request is rejected without starting any
teardown step is false at this input. -/
theorem delete_probe_counterexample :
    (ExecutingPowerAction sLocked).1 = true ∧
    (deleteServer sLocked).1 = none ∧
    (deleteServer sLocked).2.1.suspended = true ∧
    TEvent.envDestroy ∈ (deleteServer sLocked).2.2 ∧
    (deleteServer sLocked).2.2 ≠ [] := by decide

/-- C3 (amended): the probe gate belongs to the reinstall request, not the
deletion request: when `ExecutingPowerAction` reports an action in
progress, `postServerReinstall` rejects with 409 Conflict and never spawns
the reinstall, while `deleteServer` is not gated on the probe and always
proceeds with the teardown cascade. -/
theorem reinstall_probe_gate (s : Server)
    (h : (ExecutingPowerAction s).1 = true) :
    postServerReinstall s = ReinstallOutcome.conflict
      "Cannot execute server reinstall event while another power action is running." ∧
    (deleteServer s).2.2.head? = some TEvent.setSuspended ∧
    TEvent.envDestroy ∈ (deleteServer s).2.2 := by
  refine ⟨by simp [postServerReinstall, h], ?_, ?_⟩
  · rcases hd : s.environment.destroyErr with _ | e <;> simp [deleteServer, hd]
  · rcases hd : s.environment.destroyErr with _ | e <;> simp [deleteServer, hd]

/-- C3 witness: on `sLocked` the probe is positive, the reinstall request
is refused, and deletion still proceeds. -/
theorem reinstall_probe_gate_witness :
    (ExecutingPowerAction sLocked).1 = true ∧
    postServerReinstall sLocked = ReinstallOutcome.conflict
      "Cannot execute server reinstall event while another power action is running." ∧
    TEvent.envDestroy ∈ (deleteServer sLocked).2.2 :=
  ⟨rfl, (reinstall_probe_gate sLocked rfl).1, (reinstall_probe_gate sLocked rfl).2.2⟩

/-- C4: the pre-boot pipeline synchronises before it looks at suspension:
a failing `Sync()` makes it return the wrapped sync-failure error whatever
the suspended flag says, with only the sync call in the trace; the
`SuspendedError` result occurs only when `Sync()` succeeded, with the sync
event preceding the suspension check; and every pipeline trace either stops
at the failed sync or has the suspension check strictly after the sync. -/
theorem suspended_checked_after_sync (cfg : Config) (s : Server) :
    (∀ e, s.syncErr = some e →
      onBeforeStart cfg s =
        (some (GoErr.withMessage "unable to sync server data from Panel instance"
          (GoErr.external e)), [Event.sync])) ∧
    ((onBeforeStart cfg s).1 = some GoErr.suspended →
      s.syncErr = none ∧ s.suspended = true ∧
      (onBeforeStart cfg s).2 = [Event.sync, Event.checkSuspended]) ∧
    ((onBeforeStart cfg s).2 = [Event.sync] ∨
      ∃ rest, (onBeforeStart cfg s).2 = Event.sync :: Event.checkSuspended :: rest) := by
  refine ⟨?_, ?_, ?_⟩
  · intro e he
    simp [onBeforeStart, he]
  · intro h
    rcases hsy : s.syncErr with _ | e
    · cases hsp : s.suspended
      · exfalso
        by_cases hds : s.diskSpace ≤ 0
        · by_cases hcp : cfg.checkPermissionsOnBoot
          · rcases hch : s.chownErr with _ | ce <;>
              simp [onBeforeStart, hsy, hsp, hds, hcp, hch] at h
          · simp [onBeforeStart, hsy, hsp, hds, hcp] at h
        · rcases hsp2 : s.hasSpaceErr with _ | se
          · by_cases hcp : cfg.checkPermissionsOnBoot
            · rcases hch : s.chownErr with _ | ce <;>
                simp [onBeforeStart, hsy, hsp, hds, hcp, hch, hsp2] at h
            · simp [onBeforeStart, hsy, hsp, hds, hcp, hsp2] at h
          · simp [onBeforeStart, hsy, hsp, hds, hsp2] at h
      · exact ⟨rfl, rfl, by simp [onBeforeStart, hsy, hsp]⟩
    · simp [onBeforeStart, hsy] at h
  · rcases hsy : s.syncErr with _ | e
    · cases hsp : s.suspended
      · right
        by_cases hds : s.diskSpace ≤ 0
        · by_cases hcp : cfg.checkPermissionsOnBoot
          · rcases hch : s.chownErr with _ | ce <;>
              · simp only [onBeforeStart, hsy, hsp, hds, hcp, hch]
                exact ⟨_, rfl⟩
          · simp only [onBeforeStart, hsy, hsp, hds, hcp]
            exact ⟨_, rfl⟩
        · rcases hsp2 : s.hasSpaceErr with _ | se
          · by_cases hcp : cfg.checkPermissionsOnBoot
            · rcases hch : s.chownErr with _ | ce <;>
                · simp only [onBeforeStart, hsy, hsp, hds, hcp, hch, hsp2]
                  exact ⟨_, rfl⟩
            · simp only [onBeforeStart, hsy, hsp, hds, hcp, hsp2]
              exact ⟨_, rfl⟩
          · simp only [onBeforeStart, hsy, hsp, hds, hsp2]
            exact ⟨_, rfl⟩
      · right
        exact ⟨[], by simp [onBeforeStart, hsy, hsp]⟩
    · left
      simp [onBeforeStart, hsy]

/-- C4 witness: on the suspended resource `sSuspended` the pipeline ends in
`SuspendedError` with a successful sync recorded first. -/
theorem suspended_checked_after_sync_witness :
    (onBeforeStart cfg0 sSuspended).1 = some GoErr.suspended ∧
    sSuspended.syncErr = none ∧
    (onBeforeStart cfg0 sSuspended).2 = [Event.sync, Event.checkSuspended] :=
  ⟨by decide, ((suspended_checked_after_sync cfg0 sSuspended).2.1 (by decide)).1,
    ((suspended_checked_after_sync cfg0 sSuspended).2.1 (by decide)).2.2⟩

/-- C5: with the gates open and the lock obtainable, the Stop dispatch is
exactly the `WaitForStop(600, true)` call; Restart performs that identical
stop-wait first and, if it errors, returns the error unmodified with
neither the pipeline nor `Start()` invoked; if the stop-wait succeeds,
Restart continues with the pre-boot pipeline and then `Start()` exactly as
the Start path's body does. -/
theorem restart_stop_wait_first (cfg : Config) (s : Server)
    (waitSeconds : List Int) (b : Bool)
    (hi : s.installing = false) (ht : s.transferring = false)
    (hr : s.restoring = false) (hl : s.powerLock ≠ some true) :
    (HandlePowerAction cfg s PowerActionStop waitSeconds b).events
        = [Event.envWaitForStop 600 true] ∧
    (HandlePowerAction cfg s PowerActionStop waitSeconds b).err
        = s.environment.waitForStopErr.map GoErr.external ∧
    (∀ e, s.environment.waitForStopErr = some e →
      HandlePowerAction cfg s PowerActionRestart waitSeconds b =
        { err := some (GoErr.external e),
          events := [Event.envWaitForStop 600 true], lockAfter := some false }) ∧
    (s.environment.waitForStopErr = none →
      (HandlePowerAction cfg s PowerActionRestart waitSeconds b).events =
        Event.envWaitForStop 600 true :: ((onBeforeStart cfg s).2 ++
          (if (onBeforeStart cfg s).1 = none then [Event.envStart] else [])) ∧
      (HandlePowerAction cfg s PowerActionRestart waitSeconds b).err =
        (if (onBeforeStart cfg s).1 = none then s.environment.startErr.map GoErr.external
         else (onBeforeStart cfg s).1)) := by
  have hlh := lockHeld_eq_false s hl
  refine ⟨?_, ?_, ?_, ?_⟩
  · simp [HandlePowerAction, hi, ht, hr, hlh, runAction, PowerActionStop,
      PowerActionTerminate, PowerActionStart, PowerActionRestart]
  · simp [HandlePowerAction, hi, ht, hr, hlh, runAction, PowerActionStop,
      PowerActionTerminate, PowerActionStart, PowerActionRestart]
  · intro e he
    simp [HandlePowerAction, hi, ht, hr, hlh, runAction, he, PowerActionStop,
      PowerActionTerminate, PowerActionStart, PowerActionRestart]
  · intro hw
    rcases hob : onBeforeStart cfg s with ⟨oe, tr⟩
    cases oe with
    | none =>
      simp [HandlePowerAction, hi, ht, hr, hlh, runAction, hw, hob, PowerActionStop,
        PowerActionTerminate, PowerActionStart, PowerActionRestart]
    | some e =>
      simp [HandlePowerAction, hi, ht, hr, hlh, runAction, hw, hob, PowerActionStop,
        PowerActionTerminate, PowerActionStart, PowerActionRestart]

/-- C5 witness: on `sStopFail` (whose stop-wait fails with code 7) Restart
returns that error with only the stop-wait in the trace — `Start()` is
never reached. -/
theorem restart_stop_wait_first_witness :
    sStopFail.environment.waitForStopErr = some 7 ∧
    sStopFail.powerLock ≠ some true ∧
    HandlePowerAction cfg0 sStopFail PowerActionRestart [] true =
      { err := some (GoErr.external 7),
        events := [Event.envWaitForStop 600 true], lockAfter := some false } :=
  ⟨rfl, by decide,
    (restart_stop_wait_first cfg0 sStopFail [] true rfl rfl rfl (by decide)).2.2.1 7 rfl⟩

/-- C6: a non-Terminate action dispatched past the gates with no wait bound
(or a zero bound) while the lock is held by another task fails with the
LockTimeout error wrapping `context.DeadlineExceeded`, runs nothing, leaves
the lock held, and never consults the blocking-acquisition oracle (the
outcome is the same for both oracle values: a single non-blocking attempt). -/
theorem dispatch_nowait_lock_timeout (cfg : Config) (s : Server)
    (action : PowerAction) (waitSeconds : List Int) (b b' : Bool)
    (hi : s.installing = false) (ht : s.transferring = false)
    (hr : s.restoring = false)
    (hterm : action ≠ PowerActionTerminate)
    (hlock : s.powerLock = some true)
    (hw : waitSeconds = [] ∨ ∃ rest, waitSeconds = 0 :: rest) :
    HandlePowerAction cfg s action waitSeconds b =
      { err := some (GoErr.withMessage "could not acquire lock on power state"
          GoErr.deadlineExceeded), events := [], lockAfter := some true } ∧
    HandlePowerAction cfg s action waitSeconds b =
      HandlePowerAction cfg s action waitSeconds b' := by
  have hlh : lockHeld s = true := by unfold lockHeld; rw [hlock]
  have hwb : waitBoundGiven waitSeconds = false := by
    rcases hw with h | ⟨rest, h⟩ <;> simp [waitBoundGiven, h]
  have key : ∀ b0 : Bool, HandlePowerAction cfg s action waitSeconds b0 =
      { err := some (GoErr.withMessage "could not acquire lock on power state"
          GoErr.deadlineExceeded), events := [], lockAfter := some true } := by
    intro b0
    simp [HandlePowerAction, hi, ht, hr, hterm, hlh, hwb, lockTimeoutErr]
  exact ⟨key b, (key b).trans (key b').symm⟩

/-- C6 witness: Start with no wait bound on the locked `sLocked` fails
immediately with the LockTimeout error. -/
theorem dispatch_nowait_lock_timeout_witness :
    sLocked.powerLock = some true ∧
    HandlePowerAction cfg0 sLocked PowerActionStart [] true =
      { err := some (GoErr.withMessage "could not acquire lock on power state"
          GoErr.deadlineExceeded), events := [], lockAfter := some true } :=
  ⟨rfl, (dispatch_nowait_lock_timeout cfg0 sLocked PowerActionStart [] true false
    rfl rfl rfl (by decide) rfl (Or.inl rfl)).1⟩

/-- C7: with the gates open and the lock obtainable, dispatching Start on a
resource whose backend state is not Offline fails with the AlreadyRunning
error and an empty trace: no pipeline step and no backend `Start()` runs. -/
theorem start_already_running (cfg : Config) (s : Server)
    (waitSeconds : List Int) (b : Bool)
    (hi : s.installing = false) (ht : s.transferring = false)
    (hr : s.restoring = false) (hl : s.powerLock ≠ some true)
    (hs : s.environment.state ≠ ProcessState.offline) :
    HandlePowerAction cfg s PowerActionStart waitSeconds b =
      { err := some GoErr.isRunning, events := [], lockAfter := some false } := by
  have hlh := lockHeld_eq_false s hl
  simp [HandlePowerAction, hi, ht, hr, hlh, runAction, hs, PowerActionStart,
    PowerActionTerminate]

/-- C7 witness: Start on the running `sRunning` fails AlreadyRunning with
an empty trace. -/
theorem start_already_running_witness :
    sRunning.environment.state ≠ ProcessState.offline ∧
    HandlePowerAction cfg0 sRunning PowerActionStart [] true =
      { err := some GoErr.isRunning, events := [], lockAfter := some false } :=
  ⟨by decide,
    start_already_running cfg0 sRunning [] true rfl rfl rfl (by decide) (by decide)⟩

/-- C8: in the pipeline reached with a successful sync and no suspension:
a disk limit ≤ 0 spawns the asynchronous recalculation, never performs the
synchronous space check, and the pipeline result is independent of the
space-check outcome (nothing is waited on); a positive limit with a failing
synchronous check aborts the pipeline with that error, and the Start
dispatch then returns it with no `Start()` event — the backend is never
reached. -/
theorem disk_space_step (cfg : Config) (s : Server)
    (hsync : s.syncErr = none) (hsusp : s.suspended = false) :
    (s.diskSpace ≤ 0 →
      Event.hasSpaceAvailableAsync ∈ (onBeforeStart cfg s).2 ∧
      Event.hasSpaceErrSync ∉ (onBeforeStart cfg s).2 ∧
      ∀ x, onBeforeStart cfg { s with hasSpaceErr := x } = onBeforeStart cfg s) ∧
    (0 < s.diskSpace → ∀ e, s.hasSpaceErr = some e →
      onBeforeStart cfg s = (some (GoErr.external e),
        [Event.sync, Event.checkSuspended, Event.syncWithEnvironment,
          Event.hasSpaceErrSync]) ∧
      (s.installing = false → s.transferring = false → s.restoring = false →
        s.powerLock ≠ some true → s.environment.state = ProcessState.offline →
        ∀ ws b, HandlePowerAction cfg s PowerActionStart ws b =
          { err := some (GoErr.external e),
            events := [Event.sync, Event.checkSuspended, Event.syncWithEnvironment,
              Event.hasSpaceErrSync],
            lockAfter := some false })) := by
  constructor
  · intro hds
    refine ⟨?_, ?_, ?_⟩
    · by_cases hcp : cfg.checkPermissionsOnBoot
      · rcases hch : s.chownErr with _ | ce <;>
          simp [onBeforeStart, hsync, hsusp, hds, hcp, hch]
      · simp [onBeforeStart, hsync, hsusp, hds, hcp]
    · by_cases hcp : cfg.checkPermissionsOnBoot
      · rcases hch : s.chownErr with _ | ce <;>
          simp [onBeforeStart, hsync, hsusp, hds, hcp, hch]
      · simp [onBeforeStart, hsync, hsusp, hds, hcp]
    · intro x
      simp [onBeforeStart, hsync, hsusp, hds]
  · intro hds e he
    have hds2 : ¬ s.diskSpace ≤ 0 := by omega
    constructor
    · simp [onBeforeStart, hsync, hsusp, hds2, he]
    · intro hi ht hr hl hoff ws b
      have hlh := lockHeld_eq_false s hl
      simp [HandlePowerAction, hi, ht, hr, hlh, runAction, hoff,
        onBeforeStart, hsync, hsusp, hds2, he, PowerActionStart, PowerActionTerminate]

/-- C8 witness: the unlimited `s0` spawns the asynchronous recalculation,
and `sDiskFail` (limit 100, failing check 9) aborts Start with that error
and no `Start()` event. -/
theorem disk_space_step_witness :
    s0.diskSpace ≤ 0 ∧
    Event.hasSpaceAvailableAsync ∈ (onBeforeStart cfg0 s0).2 ∧
    (0:Int) < sDiskFail.diskSpace ∧
    HandlePowerAction cfg0 sDiskFail PowerActionStart [] true =
      { err := some (GoErr.external 9),
        events := [Event.sync, Event.checkSuspended, Event.syncWithEnvironment,
          Event.hasSpaceErrSync],
        lockAfter := some false } :=
  ⟨by decide, ((disk_space_step cfg0 s0 rfl rfl).1 (by decide)).1, by decide,
    ((disk_space_step cfg0 sDiskFail rfl rfl).2 (by decide) 9 rfl).2
      rfl rfl rfl (by decide) rfl [] true⟩

/-- C9: `ExecutingPowerAction` returns true exactly when the lock exists
and is held by another task (so false on a fresh resource whose lock was
never created), and the lock's state after the probe equals its state
before it — the non-blocking acquire is undone by the immediate release. -/
theorem executing_power_action_probe (s : Server) :
    (ExecutingPowerAction s).1 = decide (s.powerLock = some true) ∧
    (ExecutingPowerAction s).2 = s.powerLock := by
  rcases hp : s.powerLock with _ | b
  · simp [ExecutingPowerAction, hp]
  · cases b <;> simp [ExecutingPowerAction, hp]

/-- C10 counterexample: the claim quantifies over every offset, but at the
negative offset −1 the Go code reaches the slice expression `l[-1:]` and
panics instead of copying and returning `(0, nil)` as the claim's formula
prescribes — the embedded `ListAt` models the panic as `none` while the
claim-described `listAtClaimed` returns a value. -/
theorem listAt_negative_offset_counterexample :
    ListAt [0] ([] : List Nat) (-1) = none ∧
    listAtClaimed [0] ([] : List Nat) (-1) = (0, [], none) := by decide

/-- C10 (amended): for every offset o ≥ 0 the claim holds: `ListAt` returns
`(0, io.EOF)` when o ≥ length l, otherwise copies
`n = min (length f) (length l − o)` entries starting at index o and returns
`(n, io.EOF)` when n < length f and `(n, nil)` when n = length f; it never
copies beyond the end of l or f and never returns an error other than
io.EOF. -/
theorem listAt_nonneg_matches_claim {α : Type} (l f : List α) (o : Int)
    (h : 0 ≤ o) :
    ListAt l f o = some (listAtClaimed l f o) ∧
    (∀ n fNew e, ListAt l f o = some (n, fNew, e) →
      n ≤ f.length ∧ (o < (l.length : Int) → o.toNat + n ≤ l.length) ∧
      fNew.length = f.length ∧
      e ≠ some IOError.quotaExceeded ∧ e ≠ some IOError.failure) :=
  ⟨listAt_eq_claimed l f o h, listAt_safety l f o h⟩

/-- C10 witness: at l = [10, 20, 30], f of length 2 and offset 1, `ListAt`
matches the claimed behaviour. -/
theorem listAt_nonneg_matches_claim_witness :
    (0 : Int) ≤ 1 ∧
    ListAt [10, 20, 30] [0, 0] (1 : Int)
      = some (listAtClaimed [10, 20, 30] [0, 0] (1 : Int)) ∧
    listAtClaimed [10, 20, 30] [0, 0] (1 : Int) = (2, [20, 30], none) :=
  ⟨by decide, (listAt_nonneg_matches_claim [10, 20, 30] [0, 0] 1 (by decide)).1,
    by decide⟩

end Wings
